import Mathlib

/-!
# HackBrowserData: the command-line driver

A shallow embedding of `cmd/hack-browser-data/main.go`: the package-level
configuration variables, the flag set declared by `Execute`, the CLI action
(browser selection, the per-browser extraction loop, optional compression)
and the fatal exit of `Execute`.

The packages `browser`, `log`, `fileutil` and `urfave/cli` are outside this
source file.  Their functions are the fields of an environment `Env`: each
one is a transformer of an arbitrary external state `σ`, so the result of a
call may depend on everything that happened before it.  The driver is plain
state passing over such an environment and keeps no record of its own.

What the driver calls is observed from outside: `record env` is the
environment `env` whose every function also writes the call, with the
arguments it really received and the result it returned, to a log kept in
the state.  The calls of a run are the log left by running the same driver
against `record env`; the properties below are statements about that log.
-/

namespace HackBrowserData

/-! ## Configuration variables and flags -/

/-- The package-level variables of `main.go` (lines 12-20), in source order. -/
structure Globals where
  browserName : String
  outputDir : String
  outputFormat : String
  verbose : Bool
  compress : Bool
  profilePath : String
  isFullExport : Bool
  deriving DecidableEq, Repr

/-- Go zero values of the package-level variables, before any flag is applied. -/
def Globals.zero : Globals :=
  { browserName := "", outputDir := "", outputFormat := "", verbose := false,
    compress := false, profilePath := "", isFullExport := false }

/-- The `bool` variables a `cli.BoolFlag` of `Execute` points to. -/
inductive BoolVar where
  | verbose
  | compress
  | isFullExport
  deriving DecidableEq, Repr

/-- The `string` variables a `cli.StringFlag` of `Execute` points to. -/
inductive StringVar where
  | browserName
  | outputDir
  | outputFormat
  | profilePath
  deriving DecidableEq, Repr

/-- A flag declaration, with the fields `Execute` fills in. -/
inductive Flag where
  | BoolFlag (Name : String) (Aliases : List String) (Destination : BoolVar)
      (Value : Bool) (Usage : String)
  | StringFlag (Name : String) (Aliases : List String) (Destination : StringVar)
      (Value : String) (Usage : String)
  deriving DecidableEq, Repr

/-- The `Flags` field of the `cli.App` built by `Execute` (lines 34-49).
`names` stands for the result of `browser.Names()`, used in one usage text. -/
def Flags (names : String) : List Flag :=
  [ .BoolFlag "verbose" ["vv"] .verbose false "verbose",
    .BoolFlag "compress" ["zip"] .compress false "compress result to zip",
    .StringFlag "browser" ["b"] .browserName "all" ("available browsers: all|" ++ names),
    .StringFlag "results-dir" ["dir"] .outputDir "results" "export dir",
    .StringFlag "format" ["f"] .outputFormat "csv" "output format: csv|json",
    .StringFlag "profile-path" ["p"] .profilePath ""
      "custom profile dir path, get with chrome://version",
    .BoolFlag "full-export" ["full"] .isFullExport true "is export full browsing data" ]

/-- Store a value in a `bool` variable. -/
def Globals.setBool (g : Globals) : BoolVar → Bool → Globals
  | .verbose, v => { g with verbose := v }
  | .compress, v => { g with compress := v }
  | .isFullExport, v => { g with isFullExport := v }

/-- Store a value in a `string` variable. -/
def Globals.setString (g : Globals) : StringVar → String → Globals
  | .browserName, v => { g with browserName := v }
  | .outputDir, v => { g with outputDir := v }
  | .outputFormat, v => { g with outputFormat := v }
  | .profilePath, v => { g with profilePath := v }

/-- Registering a flag that has a `Destination` stores its `Value` there; the
variable keeps that value unless the command line sets the flag. -/
def Flag.register (g : Globals) : Flag → Globals
  | .BoolFlag _ _ dest value _ => g.setBool dest value
  | .StringFlag _ _ dest value _ => g.setString dest value

/-- The configuration of a run in which no flag is given on the command line:
every declared flag is registered, none is set. -/
def noFlagGlobals (names : String) : Globals :=
  (Flags names).foldl Flag.register Globals.zero

/-! ## External calls -/

/-- The functions the driver calls, as transformers of the external state.
A Go result pair `(value, err)` is an `Except`; a lone `error` result is an
`Option`, `none` being `nil`.
`B` is `browser.Browser`, `D` the browsing data returned by an extraction and
`E` the type of non-nil `error` values.  `ExitCoder err` tells whether `err`
implements `cli.ExitCoder`, the errors on which `app.Run` ends the process
itself. -/
structure Env (σ B D E : Type) where
  Names : σ → String × σ
  SetVerbose : σ → σ
  PickBrowsers : String → String → σ → Except E (List B) × σ
  BrowsingData : B → Bool → σ → Except E D × σ
  Name : B → σ → String × σ
  Output : D → String → String → String → σ → σ
  CompressDir : String → σ → Option E × σ
  Errorf : String → E → σ → σ
  Debug : String → σ → σ
  Fatalf : String → E → σ → σ
  ExitCoder : E → Bool

variable {σ B D E : Type}

/-! ## The driver -/

/-- Lines 53-55: `if verbose { log.SetVerbose() }`. -/
def verboseStep (env : Env σ B D E) (g : Globals) (s : σ) : σ :=
  if g.verbose then env.SetVerbose s else s

/-- Lines 66-72: the body of the loop for one browser `b`. -/
def loopBody (env : Env σ B D E) (g : Globals) (b : B) (s : σ) : σ :=
  match env.BrowsingData b g.isFullExport s with
  | (.error err, s1) => env.Errorf "get browsing data error %v" err s1
  | (.ok data, s1) =>
    let n := env.Name b s1
    env.Output data g.outputDir n.1 g.outputFormat n.2

/-- Lines 64-73: `for _, b := range browsers`. -/
def rangeBrowsers (env : Env σ B D E) (g : Globals) : List B → σ → σ
  | [], s => s
  | b :: rest, s => rangeBrowsers env g rest (loopBody env g b s)

/-- Lines 76-81: the compression step. -/
def compressStep (env : Env σ B D E) (g : Globals) (s : σ) : σ :=
  if g.compress then
    match env.CompressDir g.outputDir s with
    | (some err, s1) => env.Debug "compress success" (env.Errorf "compress error %v" err s1)
    | (none, s1) => env.Debug "compress success" s1
  else s

/-- Lines 51-83: the `Action` of the `cli.App`.  The result is the error it
returns (`none` is `nil`) and the external state it leaves. -/
def Action (env : Env σ B D E) (g : Globals) (s : σ) : Option E × σ :=
  let s0 := verboseStep env g s
  match env.PickBrowsers g.browserName g.profilePath s0 with
  | (.error err, s1) => (some err, env.Errorf "pick browsers %v" err s1)
  | (.ok browsers, s1) => (none, compressStep env g (rangeBrowsers env g browsers s1))

/-- What `app.Run(os.Args)` does with the command line before the action:
it rejects the arguments and returns an error, or serves a help or version
request itself and returns `nil`, or stores the values given on the command
line over the registered defaults (`assign`) and runs the action. -/
inductive Dispatch (E : Type) where
  | rejected (err : E)
  | served
  | run (assign : Globals → Globals)

/-- How `app.Run` ends: it returns (an error or `nil`), or it ends the process
itself because the action returned a `cli.ExitCoder`. -/
inductive RunResult (E : Type) where
  | returned (err : Option E)
  | exited (err : E)
  deriving DecidableEq, Repr

/-- Line 87: `app.Run(os.Args)` on the app with the flags `flags`, for each
way the library dispatches. -/
def appRun (env : Env σ B D E) (flags : List Flag) (d : Dispatch E) (s : σ) :
    RunResult E × σ :=
  match d with
  | .rejected err => (.returned (some err), s)
  | .served => (.returned none, s)
  | .run assign =>
    let r := Action env (assign (flags.foldl Flag.register Globals.zero)) s
    match r.1 with
    | some err => if env.ExitCoder err then (.exited err, r.2) else (.returned (some err), r.2)
    | none => (.returned none, r.2)

/-- How `Execute` ends: it returns, or the process has ended inside `app.Run`,
or `log.Fatalf` ends it. -/
inductive Ending (E : Type) where
  | returned
  | exitCoder (err : E)
  | fatal (err : E)
  deriving DecidableEq, Repr

/-- Lines 27-91: `Execute` builds the app (calling `browser.Names()` for a
usage text, line 40), runs it and calls `log.Fatalf` on a returned error. -/
def Execute (env : Env σ B D E) (d : Dispatch E) (s : σ) : Ending E × σ :=
  let names := env.Names s
  match appRun env (Flags names.1) d names.2 with
  | (.exited err, s1) => (.exitCoder err, s1)
  | (.returned (some err), s1) => (.fatal err, env.Fatalf "run app error %v" err s1)
  | (.returned none, s1) => (.returned, s1)

/-! ## Observing the calls -/

/-- One call received by the environment, with its arguments and, where there
is one, its result. -/
inductive Event (B D E : Type) where
  | Names (res : String)
  | SetVerbose
  | PickBrowsers (name profile : String) (res : Except E (List B))
  | Errorf (format : String) (err : E)
  | BrowsingData (b : B) (full : Bool) (res : Except E D)
  | Name (b : B) (res : String)
  | Output (data : D) (dir browserName format : String)
  | CompressDir (dir : String) (res : Option E)
  | Debug (msg : String)
  | Fatalf (format : String) (err : E)

/-- The environment `env` with a log: every function does what it does in
`env` on the first component of the state and appends to the second
component the call it received. -/
def record (env : Env σ B D E) : Env (σ × List (Event B D E)) B D E where
  Names := fun w =>
    ((env.Names w.1).1, ((env.Names w.1).2, w.2 ++ [.Names (env.Names w.1).1]))
  SetVerbose := fun w => (env.SetVerbose w.1, w.2 ++ [.SetVerbose])
  PickBrowsers := fun name profile w =>
    ((env.PickBrowsers name profile w.1).1,
      ((env.PickBrowsers name profile w.1).2,
        w.2 ++ [.PickBrowsers name profile (env.PickBrowsers name profile w.1).1]))
  BrowsingData := fun b full w =>
    ((env.BrowsingData b full w.1).1,
      ((env.BrowsingData b full w.1).2,
        w.2 ++ [.BrowsingData b full (env.BrowsingData b full w.1).1]))
  Name := fun b w => ((env.Name b w.1).1, ((env.Name b w.1).2, w.2 ++ [.Name b (env.Name b w.1).1]))
  Output := fun data dir n format w =>
    (env.Output data dir n format w.1, w.2 ++ [.Output data dir n format])
  CompressDir := fun dir w =>
    ((env.CompressDir dir w.1).1,
      ((env.CompressDir dir w.1).2, w.2 ++ [.CompressDir dir (env.CompressDir dir w.1).1]))
  Errorf := fun format err w => (env.Errorf format err w.1, w.2 ++ [.Errorf format err])
  Debug := fun msg w => (env.Debug msg w.1, w.2 ++ [.Debug msg])
  Fatalf := fun format err w => (env.Fatalf format err w.1, w.2 ++ [.Fatalf format err])
  ExitCoder := env.ExitCoder

/-- The calls `verboseStep` makes from the state `s`. -/
def verboseCalls (env : Env σ B D E) (g : Globals) (s : σ) : List (Event B D E) :=
  (verboseStep (record env) g (s, [])).2

/-- The calls one loop iteration makes from the state `s`. -/
def bodyCalls (env : Env σ B D E) (g : Globals) (b : B) (s : σ) : List (Event B D E) :=
  (loopBody (record env) g b (s, [])).2

/-- The calls the loop makes from the state `s`. -/
def loopCalls (env : Env σ B D E) (g : Globals) (browsers : List B) (s : σ) :
    List (Event B D E) :=
  (rangeBrowsers (record env) g browsers (s, [])).2

/-- The calls the compression step makes from the state `s`. -/
def compressStepCalls (env : Env σ B D E) (g : Globals) (s : σ) : List (Event B D E) :=
  (compressStep (record env) g (s, [])).2

/-- The calls the action makes from the state `s`, oldest first. -/
def actionCalls (env : Env σ B D E) (g : Globals) (s : σ) : List (Event B D E) :=
  (Action (record env) g (s, [])).2.2

/-- The calls `Execute` makes from the state `s`, oldest first. -/
def executeCalls (env : Env σ B D E) (d : Dispatch E) (s : σ) : List (Event B D E) :=
  (Execute (record env) d (s, [])).2.2

/-- What `browser.PickBrowsers` returns when the action calls it. -/
def picked (env : Env σ B D E) (g : Globals) (s : σ) : Except E (List B) :=
  (env.PickBrowsers g.browserName g.profilePath (verboseStep env g s)).1

/-- The configuration with which `app.Run` starts the action when the command
line assigns `assign`: the registered defaults, then the assignments. -/
def startGlobals (env : Env σ B D E) (assign : Globals → Globals) (s : σ) : Globals :=
  assign (noFlagGlobals (env.Names s).1)

/-! ## Reading a log -/

/-- The `BrowsingData` calls of a trace: receiver, argument, result. -/
def extractionCalls : List (Event B D E) → List (B × Bool × Except E D)
  | [] => []
  | .BrowsingData b full res :: t => (b, full, res) :: extractionCalls t
  | _ :: t => extractionCalls t

/-- The `Name` calls of a trace: receiver and result. -/
def nameCalls : List (Event B D E) → List (B × String)
  | [] => []
  | .Name b res :: t => (b, res) :: nameCalls t
  | _ :: t => nameCalls t

/-- The `Output` calls of a trace: receiver, then the three arguments. -/
def outputCalls : List (Event B D E) → List (D × String × String × String)
  | [] => []
  | .Output data dir n format :: t => (data, dir, n, format) :: outputCalls t
  | _ :: t => outputCalls t

/-- The `CompressDir` calls of a trace: the argument of each. -/
def compressCalls : List (Event B D E) → List String
  | [] => []
  | .CompressDir dir _ :: t => dir :: compressCalls t
  | _ :: t => compressCalls t

/-- The `log.Errorf` calls of a trace made with the format string `format`:
the error each one carries. -/
def errorLogs (format : String) : List (Event B D E) → List E
  | [] => []
  | .Errorf f err :: t => if f = format then err :: errorLogs format t else errorLogs format t
  | _ :: t => errorLogs format t

/-- The `log.Debug` calls of a trace: the message of each. -/
def debugLogs : List (Event B D E) → List String
  | [] => []
  | .Debug msg :: t => msg :: debugLogs t
  | _ :: t => debugLogs t

/-- The `log.Fatalf` calls of a trace: the error each one carries. -/
def fatalCalls : List (Event B D E) → List E
  | [] => []
  | .Fatalf _ err :: t => err :: fatalCalls t
  | _ :: t => fatalCalls t

/-- The browser and the data of each extraction that succeeded. -/
def succeeded : List (B × Bool × Except E D) → List (B × D)
  | [] => []
  | (b, _, .ok data) :: t => (b, data) :: succeeded t
  | (_, _, .error _) :: t => succeeded t

/-- The error of each extraction that failed. -/
def failures : List (B × Bool × Except E D) → List E
  | [] => []
  | (_, _, .error err) :: t => err :: failures t
  | (_, _, .ok _) :: t => failures t

/-! ## A concrete environment

Used to evaluate the driver on explicit inputs.  The external state counts
the calls made so far; browsers, data and errors are strings. -/

/-- Browser selection fails for the name "none" and otherwise finds three
browsers; extraction fails for "firefox"; compression fails for the
directory "locked"; no error is a `cli.ExitCoder`. -/
def demoEnv : Env Nat String String String where
  Names := fun s => ("chrome|firefox|edge", s + 1)
  SetVerbose := fun s => s + 1
  PickBrowsers := fun name _ s =>
    (if name = "none" then .error "browser not available"
     else .ok ["chrome", "firefox", "edge"], s + 1)
  BrowsingData := fun b _ s =>
    (if b = "firefox" then .error "find browser profile failed" else .ok (b ++ ".data"), s + 1)
  Name := fun b s => (b, s + 1)
  Output := fun _ _ _ _ s => s + 1
  CompressDir := fun dir s => (if dir = "locked" then some "open dir failed" else none, s + 1)
  Errorf := fun _ _ s => s + 1
  Debug := fun _ s => s + 1
  Fatalf := fun _ _ s => s + 1
  ExitCoder := fun _ => false

/-- The configuration of a run without flags, as literal values. -/
def demoGlobals : Globals :=
  { browserName := "all", outputDir := "results", outputFormat := "csv", verbose := false,
    compress := false, profilePath := "", isFullExport := true }

/-- A run that asks for a browser the selection does not know. -/
def unknownBrowserGlobals : Globals :=
  { demoGlobals with browserName := "none" }

/-- A run with compression switched on, on a directory that cannot be
compressed. -/
def lockedDirGlobals : Globals :=
  { demoGlobals with compress := true, outputDir := "locked" }

/-- A run with compression switched on, on a directory that can be
compressed. -/
def zipGlobals : Globals :=
  { demoGlobals with compress := true }

/-- The command line `-b none`. -/
def unknownBrowserArgs : Globals → Globals :=
  fun g => { g with browserName := "none" }

/-- The command line `--zip --dir locked`. -/
def lockedDirArgs : Globals → Globals :=
  fun g => { g with compress := true, outputDir := "locked" }

/-! ## Lemmas on logs -/

section TraceLemmas

variable (a b : List (Event B D E))

theorem extractionCalls_append :
    extractionCalls (a ++ b) = extractionCalls a ++ extractionCalls b := by
  induction a with
  | nil => rfl
  | cons e t ih => cases e <;> simp [extractionCalls, ih]

theorem nameCalls_append : nameCalls (a ++ b) = nameCalls a ++ nameCalls b := by
  induction a with
  | nil => rfl
  | cons e t ih => cases e <;> simp [nameCalls, ih]

theorem outputCalls_append : outputCalls (a ++ b) = outputCalls a ++ outputCalls b := by
  induction a with
  | nil => rfl
  | cons e t ih => cases e <;> simp [outputCalls, ih]

theorem compressCalls_append :
    compressCalls (a ++ b) = compressCalls a ++ compressCalls b := by
  induction a with
  | nil => rfl
  | cons e t ih => cases e <;> simp [compressCalls, ih]

theorem errorLogs_append (format : String) :
    errorLogs format (a ++ b) = errorLogs format a ++ errorLogs format b := by
  induction a with
  | nil => rfl
  | cons e t ih =>
    cases e <;> simp [errorLogs, ih]
    split <;> simp

theorem debugLogs_append : debugLogs (a ++ b) = debugLogs a ++ debugLogs b := by
  induction a with
  | nil => rfl
  | cons e t ih => cases e <;> simp [debugLogs, ih]

theorem fatalCalls_append : fatalCalls (a ++ b) = fatalCalls a ++ fatalCalls b := by
  induction a with
  | nil => rfl
  | cons e t ih => cases e <;> simp [fatalCalls, ih]

end TraceLemmas

/-! ## The recorded run follows the plain run -/

section RecordLemmas

variable (env : Env σ B D E) (g : Globals)

theorem record_PickBrowsers (name profile : String) (s : σ) (l : List (Event B D E)) :
    (record env).PickBrowsers name profile (s, l) =
      ((env.PickBrowsers name profile s).1,
        ((env.PickBrowsers name profile s).2,
          l ++ [.PickBrowsers name profile (env.PickBrowsers name profile s).1])) := rfl

theorem record_Errorf (format : String) (err : E) (s : σ) (l : List (Event B D E)) :
    (record env).Errorf format err (s, l) =
      (env.Errorf format err s, l ++ [.Errorf format err]) := rfl

theorem record_Names (s : σ) (l : List (Event B D E)) :
    (record env).Names (s, l) =
      ((env.Names s).1, ((env.Names s).2, l ++ [.Names (env.Names s).1])) := rfl

theorem record_Fatalf (format : String) (err : E) (s : σ) (l : List (Event B D E)) :
    (record env).Fatalf format err (s, l) =
      (env.Fatalf format err s, l ++ [.Fatalf format err]) := rfl

theorem record_ExitCoder (err : E) : (record env).ExitCoder err = env.ExitCoder err := rfl

theorem verboseStep_record (s : σ) (l : List (Event B D E)) :
    verboseStep (record env) g (s, l) = (verboseStep env g s, l ++ verboseCalls env g s) := by
  by_cases hv : g.verbose = true <;> simp [verboseStep, verboseCalls, record, hv]

theorem verboseCalls_eq (s : σ) :
    verboseCalls env g s = if g.verbose then [.SetVerbose] else [] := by
  by_cases hv : g.verbose = true <;> simp [verboseStep, verboseCalls, record, hv]

theorem loopBody_record (b : B) (s : σ) (l : List (Event B D E)) :
    loopBody (record env) g b (s, l) = (loopBody env g b s, l ++ bodyCalls env g b s) := by
  rcases h : env.BrowsingData b g.isFullExport s with ⟨r, s1⟩
  cases r <;> simp [loopBody, bodyCalls, record, h]

/-- The calls of one loop iteration: a failed extraction and its report, or a
successful extraction, the `Name` call and the `Output` call. -/
theorem bodyCalls_cases (b : B) (s : σ) :
    (∃ err, bodyCalls env g b s =
        [.BrowsingData b g.isFullExport (.error err),
         .Errorf "get browsing data error %v" err]) ∨
    (∃ data n, bodyCalls env g b s =
        [.BrowsingData b g.isFullExport (.ok data), .Name b n,
         .Output data g.outputDir n g.outputFormat]) := by
  rcases h : env.BrowsingData b g.isFullExport s with ⟨r, s1⟩
  cases r with
  | error err => exact Or.inl ⟨err, by simp [loopBody, bodyCalls, record, h]⟩
  | ok data => exact Or.inr ⟨data, _, by simp [loopBody, bodyCalls, record, h]; rfl⟩

theorem rangeBrowsers_record (browsers : List B) (s : σ) (l : List (Event B D E)) :
    rangeBrowsers (record env) g browsers (s, l) =
      (rangeBrowsers env g browsers s, l ++ loopCalls env g browsers s) := by
  induction browsers generalizing s l with
  | nil => simp [rangeBrowsers, loopCalls]
  | cons b rest ih =>
    have hc : loopCalls env g (b :: rest) s =
        bodyCalls env g b s ++ loopCalls env g rest (loopBody env g b s) := by
      show (rangeBrowsers (record env) g (b :: rest) (s, [])).2 = _
      rw [rangeBrowsers, loopBody_record, ih]
      simp
    rw [rangeBrowsers, loopBody_record, ih, hc]
    simp [rangeBrowsers]

theorem loopCalls_nil (s : σ) : loopCalls env g [] s = [] := rfl

theorem loopCalls_cons (b : B) (rest : List B) (s : σ) :
    loopCalls env g (b :: rest) s =
      bodyCalls env g b s ++ loopCalls env g rest (loopBody env g b s) := by
  show (rangeBrowsers (record env) g (b :: rest) (s, [])).2 = _
  rw [rangeBrowsers, loopBody_record, rangeBrowsers_record]
  simp

theorem compressStep_record (s : σ) (l : List (Event B D E)) :
    compressStep (record env) g (s, l) =
      (compressStep env g s, l ++ compressStepCalls env g s) := by
  by_cases hc : g.compress = true
  · rcases h : env.CompressDir g.outputDir s with ⟨r, s1⟩
    cases r <;> simp [compressStep, compressStepCalls, record, hc, h]
  · simp [compressStep, compressStepCalls, hc]

/-- The calls of the compression step: none without the flag, otherwise one
`CompressDir` call on `outputDir` followed by log calls only. -/
theorem compressStepCalls_cases (s : σ) :
    (g.compress = false ∧ compressStepCalls env g s = []) ∨
    (g.compress = true ∧ ∃ res tail,
      compressStepCalls env g s = .CompressDir g.outputDir res :: tail ∧
      extractionCalls tail = [] ∧ nameCalls tail = [] ∧ outputCalls tail = [] ∧
      compressCalls tail = [] ∧ errorLogs "get browsing data error %v" tail = [] ∧
      fatalCalls tail = []) := by
  cases hc : g.compress
  · left
    simp [compressStep, compressStepCalls, hc]
  · right
    refine ⟨rfl, ?_⟩
    rcases h : env.CompressDir g.outputDir s with ⟨r, s1⟩
    cases r with
    | none =>
      exact ⟨none, [.Debug "compress success"],
        by simp [compressStep, compressStepCalls, record, hc, h],
        by simp [extractionCalls], by simp [nameCalls], by simp [outputCalls],
        by simp [compressCalls], by simp [errorLogs], by simp [fatalCalls]⟩
    | some err =>
      exact ⟨some err, [.Errorf "compress error %v" err, .Debug "compress success"],
        by simp [compressStep, compressStepCalls, record, hc, h],
        by simp [extractionCalls], by simp [nameCalls], by simp [outputCalls],
        by simp [compressCalls], by simp [errorLogs], by simp [fatalCalls]⟩

/-- Running the action against the recording environment gives the result and
the state of the plain run, and appends the calls of the action to the log. -/
theorem Action_record (s : σ) (l : List (Event B D E)) :
    Action (record env) g (s, l) =
      ((Action env g s).1, ((Action env g s).2, l ++ actionCalls env g s)) := by
  rcases hp : env.PickBrowsers g.browserName g.profilePath (verboseStep env g s) with ⟨r, s1⟩
  cases r <;>
    simp [Action, actionCalls, verboseStep_record, record_PickBrowsers, record_Errorf, hp,
      rangeBrowsers_record, compressStep_record]

/-- The calls of the action when browser selection succeeds. -/
theorem actionCalls_ok (s : σ) (browsers : List B) (h : picked env g s = .ok browsers) :
    (Action env g s).1 = none ∧
    ∃ s1 s2, actionCalls env g s =
      verboseCalls env g s ++ [.PickBrowsers g.browserName g.profilePath (.ok browsers)] ++
        loopCalls env g browsers s1 ++ compressStepCalls env g s2 := by
  unfold picked at h
  rcases hp : env.PickBrowsers g.browserName g.profilePath (verboseStep env g s) with ⟨r, s1⟩
  rw [hp] at h
  simp only at h
  subst h
  refine ⟨by simp [Action, hp], s1, rangeBrowsers env g browsers s1, ?_⟩
  simp [Action, actionCalls, verboseStep_record, record_PickBrowsers, hp, rangeBrowsers_record,
    compressStep_record]

/-- The result and the calls of the action when browser selection fails. -/
theorem actionCalls_error (s : σ) (err : E) (h : picked env g s = .error err) :
    (Action env g s).1 = some err ∧
      actionCalls env g s =
        verboseCalls env g s ++ [.PickBrowsers g.browserName g.profilePath (.error err),
          .Errorf "pick browsers %v" err] := by
  unfold picked at h
  rcases hp : env.PickBrowsers g.browserName g.profilePath (verboseStep env g s) with ⟨r, s1⟩
  rw [hp] at h
  simp only at h
  subst h
  refine ⟨by simp [Action, hp], ?_⟩
  simp [Action, actionCalls, verboseStep_record, record_PickBrowsers, record_Errorf, hp]

/-- When the action returns `nil`, `Execute` returns, and its calls are the
`Names` call followed by the calls of the action. -/
theorem Execute_run_nil (assign : Globals → Globals) (s : σ)
    (h : (Action env (startGlobals env assign s) (env.Names s).2).1 = none) :
    (Execute env (.run assign) s).1 = .returned ∧
      executeCalls env (.run assign) s =
        .Names (env.Names s).1 :: actionCalls env (startGlobals env assign s) (env.Names s).2 := by
  unfold startGlobals noFlagGlobals at h
  constructor
  · simp [Execute, appRun, h]
  · simp [executeCalls, Execute, appRun, record_Names, Action_record, h, startGlobals,
      noFlagGlobals]

end RecordLemmas

/-! ## Lemmas on the calls of the loop -/

section LoopLemmas

variable (env : Env σ B D E) (g : Globals)

theorem loopCalls_receivers (browsers : List B) (s : σ) :
    (extractionCalls (loopCalls env g browsers s)).map (fun c => c.1) = browsers := by
  induction browsers generalizing s with
  | nil => rfl
  | cons b rest ih =>
    rw [loopCalls_cons]
    rcases bodyCalls_cases env g b s with ⟨err, h⟩ | ⟨data, n, h⟩ <;>
      simp [h, extractionCalls, ih]

theorem loopCalls_arguments (browsers : List B) (s : σ) :
    (extractionCalls (loopCalls env g browsers s)).map (fun c => c.2.1) =
      List.replicate browsers.length g.isFullExport := by
  induction browsers generalizing s with
  | nil => rfl
  | cons b rest ih =>
    rw [loopCalls_cons]
    rcases bodyCalls_cases env g b s with ⟨err, h⟩ | ⟨data, n, h⟩ <;>
      simp [h, extractionCalls, extractionCalls_append, List.replicate_succ, ih]

theorem loopCalls_names (browsers : List B) (s : σ) :
    (nameCalls (loopCalls env g browsers s)).map (fun c => c.1) =
      (succeeded (extractionCalls (loopCalls env g browsers s))).map (fun c => c.1) := by
  induction browsers generalizing s with
  | nil => rfl
  | cons b rest ih =>
    rw [loopCalls_cons]
    rcases bodyCalls_cases env g b s with ⟨err, h⟩ | ⟨data, n, h⟩ <;>
      simp [h, extractionCalls, nameCalls, succeeded, ih]

theorem loopCalls_outputs (browsers : List B) (s : σ) :
    outputCalls (loopCalls env g browsers s) =
      List.zipWith (fun c n => (c.2, g.outputDir, n.2, g.outputFormat))
        (succeeded (extractionCalls (loopCalls env g browsers s)))
        (nameCalls (loopCalls env g browsers s)) := by
  induction browsers generalizing s with
  | nil => rfl
  | cons b rest ih =>
    rw [loopCalls_cons]
    rcases bodyCalls_cases env g b s with ⟨err, h⟩ | ⟨data, n, h⟩ <;>
      simp [h, extractionCalls, nameCalls, outputCalls, succeeded, ih]

theorem loopCalls_reports (browsers : List B) (s : σ) :
    errorLogs "get browsing data error %v" (loopCalls env g browsers s) =
      failures (extractionCalls (loopCalls env g browsers s)) := by
  induction browsers generalizing s with
  | nil => rfl
  | cons b rest ih =>
    rw [loopCalls_cons]
    rcases bodyCalls_cases env g b s with ⟨err, h⟩ | ⟨data, n, h⟩ <;>
      simp [h, extractionCalls, errorLogs, failures, ih]

theorem loopCalls_compress (browsers : List B) (s : σ) :
    compressCalls (loopCalls env g browsers s) = [] := by
  induction browsers generalizing s with
  | nil => rfl
  | cons b rest ih =>
    rw [loopCalls_cons]
    rcases bodyCalls_cases env g b s with ⟨err, h⟩ | ⟨data, n, h⟩ <;>
      simp [h, compressCalls, ih]

theorem loopCalls_fatal (browsers : List B) (s : σ) :
    fatalCalls (loopCalls env g browsers s) = [] := by
  induction browsers generalizing s with
  | nil => rfl
  | cons b rest ih =>
    rw [loopCalls_cons]
    rcases bodyCalls_cases env g b s with ⟨err, h⟩ | ⟨data, n, h⟩ <;>
      simp [h, fatalCalls, ih]

/-- The calls of a successful action, by kind, in terms of the loop alone. -/
theorem actionCalls_ok_kinds (s : σ) (browsers : List B) (h : picked env g s = .ok browsers) :
    ∃ s1, ∃ loop : List (Event B D E), loop = loopCalls env g browsers s1 ∧
      extractionCalls (actionCalls env g s) = extractionCalls loop ∧
      nameCalls (actionCalls env g s) = nameCalls loop ∧
      outputCalls (actionCalls env g s) = outputCalls loop ∧
      errorLogs "get browsing data error %v" (actionCalls env g s) =
        errorLogs "get browsing data error %v" loop ∧
      compressCalls (actionCalls env g s) = (if g.compress then [g.outputDir] else []) ∧
      fatalCalls (actionCalls env g s) = [] := by
  obtain ⟨-, s1, s2, ht⟩ := actionCalls_ok env g s browsers h
  refine ⟨s1, _, rfl, ?_⟩
  rw [ht, verboseCalls_eq]
  simp only [extractionCalls_append, nameCalls_append, outputCalls_append, errorLogs_append,
    compressCalls_append, fatalCalls_append, loopCalls_compress, loopCalls_fatal]
  rcases compressStepCalls_cases env g s2 with ⟨hc, hs⟩ | ⟨hc, res, tail, hs, h1, h2, h3, h4, h5, h6⟩
  · cases hv : g.verbose <;>
      simp [hs, hc, extractionCalls, nameCalls, outputCalls, errorLogs, compressCalls,
        fatalCalls]
  · cases hv : g.verbose <;>
      simp [hs, hc, extractionCalls, nameCalls, outputCalls, errorLogs, compressCalls,
        fatalCalls, h1, h2, h3, h4, h5, h6]

end LoopLemmas

/-! ## The properties of the driver -/

section Properties

variable (env : Env σ B D E) (g : Globals) (s : σ)

/-- C1: when browser selection succeeds, the receivers of the `BrowsingData`
calls the environment receives from the action are, in order, exactly the
browsers of the selected list: each browser is tried once, whatever the
earlier extractions returned. -/
theorem extraction_tried_once_per_browser (browsers : List B)
    (h : picked env g s = .ok browsers) :
    (extractionCalls (actionCalls env g s)).map (fun c => c.1) = browsers := by
  obtain ⟨s1, loop, hl, he, -⟩ := actionCalls_ok_kinds env g s browsers h
  rw [he, hl]
  exact loopCalls_receivers env g browsers s1

theorem extraction_tried_once_per_browser_witness :
    picked demoEnv demoGlobals 0 = .ok ["chrome", "firefox", "edge"] ∧
      (extractionCalls (actionCalls demoEnv demoGlobals 0)).map (fun c => c.1) =
        ["chrome", "firefox", "edge"] :=
  ⟨rfl, extraction_tried_once_per_browser demoEnv demoGlobals 0 _ rfl⟩

/-- C2 as stated fails: on the command line `-b none` browser selection
fails, the action returns the error and `Execute` calls `log.Fatalf` on it. -/
theorem pick_failure_is_fatal :
    (Action demoEnv unknownBrowserGlobals 0).1 = some "browser not available" ∧
      (Execute demoEnv (.run unknownBrowserArgs) 0).1 = .fatal "browser not available" ∧
      fatalCalls (executeCalls demoEnv (.run unknownBrowserArgs) 0) =
        ["browser not available"] :=
  ⟨rfl, rfl, rfl⟩

/-- C2, amended: when browser selection succeeds, the action returns no error,
`Execute` returns and the environment receives no `log.Fatalf` call, whatever
the extractions and the compression return. -/
theorem no_fatal_exit_after_selection (assign : Globals → Globals) (browsers : List B)
    (h : picked env (startGlobals env assign s) (env.Names s).2 = .ok browsers) :
    (Action env (startGlobals env assign s) (env.Names s).2).1 = none ∧
      (Execute env (.run assign) s).1 = .returned ∧
      fatalCalls (executeCalls env (.run assign) s) = [] := by
  obtain ⟨herr, -⟩ := actionCalls_ok env _ _ browsers h
  obtain ⟨_, _, _, _, _, _, _, _, hf⟩ := actionCalls_ok_kinds env _ _ browsers h
  obtain ⟨hr, hc⟩ := Execute_run_nil env assign s herr
  exact ⟨herr, hr, by rw [hc]; simpa [fatalCalls] using hf⟩

theorem no_fatal_exit_after_selection_witness :
    picked demoEnv (startGlobals demoEnv lockedDirArgs 0) (demoEnv.Names 0).2 =
        .ok ["chrome", "firefox", "edge"] ∧
      (Action demoEnv (startGlobals demoEnv lockedDirArgs 0) (demoEnv.Names 0).2).1 = none ∧
      (Execute demoEnv (.run lockedDirArgs) 0).1 = .returned ∧
      fatalCalls (executeCalls demoEnv (.run lockedDirArgs) 0) = [] :=
  ⟨rfl, no_fatal_exit_after_selection demoEnv 0 lockedDirArgs _ rfl⟩

/-- C3: when browser selection succeeds, `Name` is called on exactly the
browsers whose extraction succeeded, in the order of the list, and the
`Output` calls the environment receives are, in the same order, one per
successful extraction: the receiver is the data that extraction returned and
the arguments are `outputDir`, the result of that browser's `Name` call and
`outputFormat`. -/
theorem output_per_successful_extraction (browsers : List B)
    (h : picked env g s = .ok browsers) :
    (extractionCalls (actionCalls env g s)).map (fun c => c.1) = browsers ∧
      (nameCalls (actionCalls env g s)).map (fun c => c.1) =
        (succeeded (extractionCalls (actionCalls env g s))).map (fun c => c.1) ∧
      outputCalls (actionCalls env g s) =
        List.zipWith (fun c n => (c.2, g.outputDir, n.2, g.outputFormat))
          (succeeded (extractionCalls (actionCalls env g s)))
          (nameCalls (actionCalls env g s)) := by
  obtain ⟨s1, loop, hl, he, hn, ho, -⟩ := actionCalls_ok_kinds env g s browsers h
  rw [he, hn, ho, hl]
  exact ⟨loopCalls_receivers env g browsers s1, loopCalls_names env g browsers s1,
    loopCalls_outputs env g browsers s1⟩

theorem output_per_successful_extraction_witness :
    picked demoEnv demoGlobals 0 = .ok ["chrome", "firefox", "edge"] ∧
      outputCalls (actionCalls demoEnv demoGlobals 0) =
        [("chrome.data", "results", "chrome", "csv"), ("edge.data", "results", "edge", "csv")] :=
  ⟨rfl, (output_per_successful_extraction demoEnv demoGlobals 0 _ rfl).2.2.trans rfl⟩

/-- C4: when browser selection succeeds, every `BrowsingData` call the
environment receives from the action, one per selected browser, has the value
of `isFullExport` as its argument. -/
theorem extraction_receives_full_export_flag (browsers : List B)
    (h : picked env g s = .ok browsers) :
    (extractionCalls (actionCalls env g s)).map (fun c => c.2.1) =
      List.replicate browsers.length g.isFullExport := by
  obtain ⟨s1, loop, hl, he, -⟩ := actionCalls_ok_kinds env g s browsers h
  rw [he, hl]
  exact loopCalls_arguments env g browsers s1

theorem extraction_receives_full_export_flag_witness :
    picked demoEnv demoGlobals 0 = .ok ["chrome", "firefox", "edge"] ∧
      (extractionCalls (actionCalls demoEnv demoGlobals 0)).map (fun c => c.2.1) =
        [true, true, true] :=
  ⟨rfl, extraction_receives_full_export_flag demoEnv demoGlobals 0 _ rfl⟩

/-- C5: when browser selection succeeds, the errors carried by the
"get browsing data error" reports the logger receives from the action are, in
order, exactly the errors of the `BrowsingData` calls that failed, so there
are as many reports as failed extractions. -/
theorem one_report_per_failed_extraction (browsers : List B)
    (h : picked env g s = .ok browsers) :
    (extractionCalls (actionCalls env g s)).map (fun c => c.1) = browsers ∧
      errorLogs "get browsing data error %v" (actionCalls env g s) =
        failures (extractionCalls (actionCalls env g s)) ∧
      (errorLogs "get browsing data error %v" (actionCalls env g s)).length =
        (failures (extractionCalls (actionCalls env g s))).length := by
  obtain ⟨s1, loop, hl, he, -, -, hr, -⟩ := actionCalls_ok_kinds env g s browsers h
  rw [he, hr, hl]
  exact ⟨loopCalls_receivers env g browsers s1,
    loopCalls_reports env g browsers s1,
    congrArg List.length (loopCalls_reports env g browsers s1)⟩

theorem one_report_per_failed_extraction_witness :
    picked demoEnv demoGlobals 0 = .ok ["chrome", "firefox", "edge"] ∧
      errorLogs "get browsing data error %v" (actionCalls demoEnv demoGlobals 0) =
        ["find browser profile failed"] :=
  ⟨rfl, (one_report_per_failed_extraction demoEnv demoGlobals 0 _ rfl).2.1.trans rfl⟩

/-- C6: when browser selection succeeds, the environment receives from the
action one `CompressDir` call, on `outputDir`, if `compress` is set and none
otherwise; the calls split into a first part that holds the extraction of
every selected browser and all the `Output` calls but no `CompressDir` call,
and a rest that holds no `BrowsingData`, `Name` or `Output` call and no
"get browsing data error" report. -/
theorem compression_once_after_loop (browsers : List B)
    (h : picked env g s = .ok browsers) :
    compressCalls (actionCalls env g s) = (if g.compress then [g.outputDir] else []) ∧
      ∃ pre post, actionCalls env g s = pre ++ post ∧
        (extractionCalls pre).map (fun c => c.1) = browsers ∧
        outputCalls pre = outputCalls (actionCalls env g s) ∧
        errorLogs "get browsing data error %v" pre = failures (extractionCalls pre) ∧
        compressCalls pre = [] ∧
        extractionCalls post = [] ∧ nameCalls post = [] ∧ outputCalls post = [] ∧
        errorLogs "get browsing data error %v" post = [] := by
  obtain ⟨-, s1, s2, ht⟩ := actionCalls_ok env g s browsers h
  obtain ⟨_, _, _, _, _, _, _, hc, _⟩ := actionCalls_ok_kinds env g s browsers h
  refine ⟨hc, _, _, ht, ?_, ?_, ?_, ?_, ?_⟩
  · rw [extractionCalls_append, extractionCalls_append, List.map_append, List.map_append,
      loopCalls_receivers, verboseCalls_eq]
    cases hv : g.verbose <;> simp [extractionCalls]
  · rw [ht]
    rcases compressStepCalls_cases env g s2 with ⟨-, hs⟩ | ⟨-, res, tail, hs, -, -, h3, -⟩
    · simp [hs]
    · simp [outputCalls_append, hs, outputCalls, h3]
  · rw [errorLogs_append, errorLogs_append, extractionCalls_append, extractionCalls_append,
      loopCalls_reports, verboseCalls_eq]
    cases hv : g.verbose <;> simp [extractionCalls, errorLogs]
  · rw [compressCalls_append, compressCalls_append, loopCalls_compress, verboseCalls_eq]
    cases hv : g.verbose <;> simp [compressCalls]
  · rcases compressStepCalls_cases env g s2 with
      ⟨-, hs⟩ | ⟨-, res, tail, hs, h1, h2, h3, -, h5, -⟩
    · simp [hs, extractionCalls, nameCalls, outputCalls, errorLogs]
    · simp [hs, extractionCalls, nameCalls, outputCalls, errorLogs, h1, h2, h3, h5]

theorem compression_once_after_loop_witness :
    picked demoEnv zipGlobals 0 = .ok ["chrome", "firefox", "edge"] ∧
      compressCalls (actionCalls demoEnv zipGlobals 0) = ["results"] :=
  ⟨rfl, (compression_once_after_loop demoEnv zipGlobals 0 _ rfl).1.trans rfl⟩

/-- C8: the action returns the error `err` exactly when `PickBrowsers`
returns `err`; in that case the calls the environment receives are the
optional `SetVerbose`, the selection and one "pick browsers" report of `err`,
so there is no `BrowsingData`, `Output` or `CompressDir` call. -/
theorem error_iff_selection_fails (err : E) :
    ((Action env g s).1 = some err ↔ picked env g s = .error err) ∧
      (picked env g s = .error err →
        actionCalls env g s =
            verboseCalls env g s ++
              [.PickBrowsers g.browserName g.profilePath (.error err),
               .Errorf "pick browsers %v" err] ∧
          verboseCalls env g s = (if g.verbose then [.SetVerbose] else []) ∧
          errorLogs "pick browsers %v" (actionCalls env g s) = [err] ∧
          extractionCalls (actionCalls env g s) = [] ∧
          outputCalls (actionCalls env g s) = [] ∧
          compressCalls (actionCalls env g s) = []) := by
  refine ⟨⟨fun h => ?_, fun h => (actionCalls_error env g s err h).1⟩, fun h => ?_⟩
  · rcases hp : picked env g s with e | browsers
    · rw [(actionCalls_error env g s e hp).1] at h
      rw [Option.some.inj h]
    · obtain ⟨hn, -⟩ := actionCalls_ok env g s browsers hp
      rw [hn] at h
      exact absurd h (by simp)
  · obtain ⟨-, ht⟩ := actionCalls_error env g s err h
    refine ⟨ht, verboseCalls_eq env g s, ?_⟩
    rw [ht, verboseCalls_eq]
    cases hv : g.verbose <;> simp [errorLogs, extractionCalls, outputCalls, compressCalls]

theorem error_iff_selection_fails_witness :
    picked demoEnv unknownBrowserGlobals 0 = .error "browser not available" ∧
      (Action demoEnv unknownBrowserGlobals 0).1 = some "browser not available" ∧
      errorLogs "pick browsers %v" (actionCalls demoEnv unknownBrowserGlobals 0) =
        ["browser not available"] ∧
      extractionCalls (actionCalls demoEnv unknownBrowserGlobals 0) = [] :=
  ⟨rfl,
   (error_iff_selection_fails demoEnv unknownBrowserGlobals 0 "browser not available").1.2 rfl,
   ((error_iff_selection_fails demoEnv unknownBrowserGlobals 0
      "browser not available").2 rfl).2.2.1,
   ((error_iff_selection_fails demoEnv unknownBrowserGlobals 0
      "browser not available").2 rfl).2.2.2.1⟩

/-- C9 fails on the code: with `compress` set and a `CompressDir` that
returns an error, the action reports "compress error" and then still logs
"compress success". -/
theorem compress_success_logged_after_error :
    actionCalls demoEnv lockedDirGlobals 0 =
      [.PickBrowsers "all" "" (.ok ["chrome", "firefox", "edge"]),
       .BrowsingData "chrome" true (.ok "chrome.data"),
       .Name "chrome" "chrome",
       .Output "chrome.data" "locked" "chrome" "csv",
       .BrowsingData "firefox" true (.error "find browser profile failed"),
       .Errorf "get browsing data error %v" "find browser profile failed",
       .BrowsingData "edge" true (.ok "edge.data"),
       .Name "edge" "edge",
       .Output "edge.data" "locked" "edge" "csv",
       .CompressDir "locked" (some "open dir failed"),
       .Errorf "compress error %v" "open dir failed",
       .Debug "compress success"] ∧
      errorLogs "compress error %v" (actionCalls demoEnv lockedDirGlobals 0) =
        ["open dir failed"] ∧
      debugLogs (actionCalls demoEnv lockedDirGlobals 0) = ["compress success"] :=
  ⟨rfl, rfl, rfl⟩

end Properties

end HackBrowserData
